import Mathlib

/-!
Verification of the sar-report parsing library (sarparse).

The source is a small Python module that tokenizes textual sar reports
(CPU, memory, per-device disk) and a companion timelog file, estimates
the sampling interval from the first two samples, anchors the
time-of-day-only first sample to an absolute reference timestamp, and
rewrites the sequence with synthetic absolute timestamps.

The shallow embedding below models:
  - Python strings as lists of characters (`PyStr`) with the string
    operations the source uses (strip, whitespace split, split on a
    character with an optional maxsplit, startswith, substring test,
    int parsing);
  - Python runtime failures (IndexError, ValueError, AssertionError)
    as an explicit error type threaded through `Except`;
  - `datetime.datetime` as a record of six integer components, with
    proleptic-Gregorian conversion to and from a count of seconds
    (timestamps are unbounded here: the year 1..9999 range check of the
    Python constructor is modelled in `datetime_new`, while overflow of
    `+ timedelta` past year 9999 is not modelled);
  - `float(...)` fields abstractly, as the validated source token
    (`PyFloat`): no claim depends on numeric float values, only on which
    tokens are kept, so float syntax checking and rounding are out of
    scope;
  - each namedtuple as a record with its `time` field (field 0) split
    from the remaining fields, mirroring `x._replace(time=...)` and the
    positional access `x[0]` used by the source.

File input is modelled as the list of decompressed lines.
-/

/-! ## Python strings -/

/-- A Python string, modelled as its list of characters. -/
abbrev PyStr := List Char

/-- Coerce a Lean string literal to a `PyStr`. -/
def pystr (s : String) : PyStr := s.data

/-- Python `str.isspace` for a single character: the whitespace class used
by `str.strip()` and `str.split()`. -/
def pyIsSpace (c : Char) : Bool :=
  c == ' ' || c == '\t' || c == '\n' || c == '\r' ||
    c == Char.ofNat 11 || c == Char.ofNat 12

/-- Python `str.strip()`: remove leading and trailing whitespace. -/
def pyStrip (s : PyStr) : PyStr :=
  ((s.dropWhile pyIsSpace).reverse.dropWhile pyIsSpace).reverse

/-- Split at every character satisfying `p`, keeping empty pieces; the
result is always nonempty. Used to model Python `str.split(sep)`. -/
def splitChar (p : Char → Bool) : PyStr → List PyStr
  | [] => [[]]
  | c :: rest =>
    match splitChar p rest with
    | [] => if p c then [[], []] else [[c]]
    | t :: ts => if p c then [] :: t :: ts else (c :: t) :: ts

/-- Python `str.split()` with no separator: split on whitespace runs and
drop empty pieces. -/
def pySplitWs (s : PyStr) : List PyStr :=
  (splitChar pyIsSpace s).filter (fun t => t ≠ [])

/-- Python `str.split(sep)` for a one-character separator: empty pieces
are kept. -/
def pySplitOn (sep : Char) (s : PyStr) : List PyStr :=
  splitChar (fun c => c == sep) s

/-- Python `' '.join(parts)`. -/
def joinSpace : List PyStr → PyStr
  | [] => []
  | [t] => t
  | t :: rest => t ++ ' ' :: joinSpace rest

/-- Python `str.split(' ', 2)`: at most two splits, further spaces are
kept inside the third piece. -/
def pySplitSpace2 (s : PyStr) : List PyStr :=
  match pySplitOn ' ' s with
  | a :: b :: c :: rest => [a, b, joinSpace (c :: rest)]
  | parts => parts

/-- Python `str.startswith(pre)`. -/
def pyStartsWith (pre s : PyStr) : Bool := List.isPrefixOf pre s

/-- Python `pat in s` substring test. -/
def pyContains (pat : PyStr) : PyStr → Bool
  | [] => pat.isEmpty
  | c :: rest => List.isPrefixOf pat (c :: rest) || pyContains pat rest

/-- Numeric value of a digit string. -/
def digitsVal (s : PyStr) : Int :=
  s.foldl (fun n c => 10 * n + (Int.ofNat c.toNat - 48)) 0

/-- Python `int(str)`: optional surrounding whitespace, optional sign,
then a nonempty run of decimal digits. -/
def pyInt (s : PyStr) : Option Int :=
  match pyStrip s with
  | '-' :: ds => if ds ≠ [] ∧ ds.all Char.isDigit then some (-(digitsVal ds)) else none
  | '+' :: ds => if ds ≠ [] ∧ ds.all Char.isDigit then some (digitsVal ds) else none
  | ds => if ds ≠ [] ∧ ds.all Char.isDigit then some (digitsVal ds) else none

/-! ## Python runtime failures -/

/-- The Python runtime failures the source can raise: an out-of-range
sequence index, a failed value conversion (`int`, `float`, `strptime`,
tuple unpacking, `datetime` range check), and a failed `assert`. -/
inductive PyError : Type
  | indexError : PyError
  | valueError : PyError
  | assertionError : PyError
deriving DecidableEq, Repr

deriving instance DecidableEq for Except

/-- Python `seq[i]`: `IndexError` when out of range. -/
def pyIndex {α : Type} (l : List α) (i : Nat) : Except PyError α :=
  match l.get? i with
  | some x => Except.ok x
  | none => Except.error PyError.indexError

/-- A parsed Python float, abstracted as its validated source token: no
claim depends on numeric float values, only on which tokens become which
record fields. -/
structure PyFloat : Type where
  raw : PyStr
deriving DecidableEq, Repr

/-- Model of Python `float(tok)` on a sar numeric token. -/
def pyFloat (tok : PyStr) : PyFloat := ⟨tok⟩

/-! ## The proleptic Gregorian calendar and `datetime.datetime`

Days are counted from 1970-01-01.  `daysFromCivil` is the standard
era-based formula; `civilFromDays` recovers the date by peeling the
400-year era, then the century, the quadrennium and the year inside the
era (March-based, so every leap day is the last day of its shifted
year). -/

/-- Days since 1970-01-01 of a civil date (proleptic Gregorian). -/
def daysFromCivil (y0 m d : Int) : Int :=
  let y := if m ≤ 2 then y0 - 1 else y0
  let era := y / 400
  let yoe := y - era * 400
  let doy := (153 * (m + (if m > 2 then -3 else 9)) + 2) / 5 + d - 1
  let doe := yoe * 365 + yoe / 4 - yoe / 100 + doy
  era * 146097 + doe - 719468

/-- Day count shifted to the March-based epoch 0000-03-01. -/
def doeOf (z : Int) : Int := (z + 719468) % 146097

/-- 400-year era of a day count. -/
def eraOf (z : Int) : Int := (z + 719468) / 146097

/-- Century within the era (0..3); the last century of an era is one day
longer, hence the clamp. -/
def centOf (z : Int) : Int := if doeOf z / 36524 > 3 then 3 else doeOf z / 36524

/-- Day within the century (0..36524). -/
def docOf (z : Int) : Int := doeOf z - 36524 * centOf z

/-- Quadrennium within the century (0..24). -/
def quadOf (z : Int) : Int := docOf z / 1461

/-- Day within the quadrennium (0..1460). -/
def doqOf (z : Int) : Int := docOf z - 1461 * quadOf z

/-- Year within the quadrennium (0..3); the leap year is the last one,
hence the clamp. -/
def y4Of (z : Int) : Int := if doqOf z / 365 > 3 then 3 else doqOf z / 365

/-- Day within the March-based year (0..365). -/
def doyOf (z : Int) : Int := doqOf z - 365 * y4Of z

/-- Year within the era (0..399). -/
def yoeOf (z : Int) : Int := 100 * centOf z + 4 * quadOf z + y4Of z

/-- March-based month index (0..11) from the day of year. -/
def mpOf (z : Int) : Int := (5 * doyOf z + 2) / 153

/-- Civil month (1..12) of a day count. -/
def monthOf (z : Int) : Int := mpOf z + (if mpOf z < 10 then 3 else -9)

/-- Civil day of month (1..31) of a day count. -/
def mdayOf (z : Int) : Int := doyOf z - (153 * mpOf z + 2) / 5 + 1

/-- Civil year of a day count. -/
def yearOf (z : Int) : Int :=
  if monthOf z ≤ 2 then yoeOf z + eraOf z * 400 + 1 else yoeOf z + eraOf z * 400

theorem doeOf_bounds (z : Int) : 0 ≤ doeOf z ∧ doeOf z ≤ 146096 := by
  unfold doeOf; omega

theorem centOf_bounds (z : Int) : 0 ≤ centOf z ∧ centOf z ≤ 3 := by
  unfold centOf doeOf; split <;> omega

theorem docOf_bounds (z : Int) : 0 ≤ docOf z ∧ docOf z ≤ 36524 := by
  unfold docOf centOf doeOf; split <;> omega

theorem quadOf_bounds (z : Int) : 0 ≤ quadOf z ∧ quadOf z ≤ 24 := by
  have h := docOf_bounds z
  unfold quadOf; omega

theorem doqOf_bounds (z : Int) : 0 ≤ doqOf z ∧ doqOf z ≤ 1460 := by
  have h := docOf_bounds z
  unfold doqOf quadOf; omega

theorem y4Of_bounds (z : Int) : 0 ≤ y4Of z ∧ y4Of z ≤ 3 := by
  have h := doqOf_bounds z
  unfold y4Of; split <;> omega

theorem doyOf_bounds (z : Int) : 0 ≤ doyOf z ∧ doyOf z ≤ 365 := by
  have h := doqOf_bounds z
  unfold doyOf y4Of; split <;> omega

theorem yoeOf_bounds (z : Int) : 0 ≤ yoeOf z ∧ yoeOf z ≤ 399 := by
  have h1 := centOf_bounds z
  have h2 := quadOf_bounds z
  have h3 := y4Of_bounds z
  unfold yoeOf; omega

theorem doe_reassemble (z : Int) :
    36524 * centOf z + 1461 * quadOf z + 365 * y4Of z + doyOf z = doeOf z := by
  unfold doyOf doqOf quadOf docOf; ring

theorem yoe_div4 (z : Int) : yoeOf z / 4 = 25 * centOf z + quadOf z := by
  have h1 := centOf_bounds z
  have h2 := quadOf_bounds z
  have h3 := y4Of_bounds z
  unfold yoeOf; omega

theorem yoe_div100 (z : Int) : yoeOf z / 100 = centOf z := by
  have h1 := centOf_bounds z
  have h2 := quadOf_bounds z
  have h3 := y4Of_bounds z
  unfold yoeOf; omega

theorem yoe_formula (z : Int) :
    365 * yoeOf z + yoeOf z / 4 - yoeOf z / 100 + doyOf z = doeOf z := by
  rw [yoe_div4, yoe_div100, ← doe_reassemble z]
  unfold yoeOf; ring

theorem mpOf_bounds (z : Int) : 0 ≤ mpOf z ∧ mpOf z ≤ 11 := by
  have h := doyOf_bounds z
  unfold mpOf; omega

theorem month_shift (z : Int) :
    monthOf z + (if monthOf z > 2 then -3 else 9) = mpOf z ∧
    (monthOf z ≤ 2 ↔ 10 ≤ mpOf z) ∧ 1 ≤ monthOf z ∧ monthOf z ≤ 12 := by
  have h := mpOf_bounds z
  unfold monthOf; split_ifs <;> omega

/-- The civil date extracted from a day count maps back to that day
count: the calendar conversions are mutually consistent. -/
theorem days_civil_roundtrip (z : Int) :
    daysFromCivil (yearOf z) (monthOf z) (mdayOf z) = z := by
  have hshift := month_shift z
  have hyoe := yoeOf_bounds z
  have hf := yoe_formula z
  unfold daysFromCivil
  dsimp only
  rw [hshift.1]
  have hy : (if monthOf z ≤ 2 then yearOf z - 1 else yearOf z) =
      yoeOf z + eraOf z * 400 := by
    unfold yearOf; split_ifs <;> simp_all
  rw [hy]
  have hera : (yoeOf z + eraOf z * 400) / 400 = eraOf z := by omega
  rw [hera]
  have hdoe := doeOf_bounds z
  have hz : eraOf z * 146097 + doeOf z = z + 719468 := by
    unfold eraOf doeOf; omega
  unfold mdayOf at *
  omega

/-- Model of `datetime.datetime`: six integer components. Equality is
componentwise, as in Python. -/
structure Datetime : Type where
  year : Int
  month : Int
  day : Int
  hour : Int
  minute : Int
  second : Int
deriving DecidableEq, Repr

/-- Seconds since 1970-01-01 00:00:00 of a `Datetime`. -/
def toSeconds (d : Datetime) : Int :=
  86400 * daysFromCivil d.year d.month d.day +
    3600 * d.hour + 60 * d.minute + d.second

/-- The canonical `Datetime` of a count of seconds since the epoch. -/
def ofSeconds (n : Int) : Datetime :=
  let z := n / 86400
  let rem := n % 86400
  ⟨yearOf z, monthOf z, mdayOf z, rem / 3600, rem % 3600 / 60, rem % 60⟩

theorem toSeconds_ofSeconds (n : Int) : toSeconds (ofSeconds n) = n := by
  unfold toSeconds ofSeconds
  dsimp only
  rw [days_civil_roundtrip]
  omega

/-- Model of `datetime + timedelta(0, n)`: advance the instant by `n`
seconds. -/
def addSeconds (d : Datetime) (n : Int) : Datetime :=
  ofSeconds (toSeconds d + n)

theorem toSeconds_addSeconds (d : Datetime) (n : Int) :
    toSeconds (addSeconds d n) = toSeconds d + n :=
  toSeconds_ofSeconds (toSeconds d + n)

/-- Whether a year is a Gregorian leap year. -/
def isLeap (y : Int) : Bool :=
  y % 4 == 0 && (y % 100 != 0 || y % 400 == 0)

/-- Length of a month, as checked by the `datetime.datetime` constructor. -/
def daysInMonth (y m : Int) : Int :=
  if m = 2 then (if isLeap y then 29 else 28)
  else if m = 4 ∨ m = 6 ∨ m = 9 ∨ m = 11 then 30
  else 31

/-- Model of the `datetime.datetime(...)` constructor: validates every
component (`ValueError` otherwise), then stores them unchanged. -/
def datetime_new (y mo d h mi s : Int) : Except PyError Datetime :=
  if 1 ≤ y ∧ y ≤ 9999 ∧ 1 ≤ mo ∧ mo ≤ 12 ∧ 1 ≤ d ∧ d ≤ daysInMonth y mo ∧
      0 ≤ h ∧ h ≤ 23 ∧ 0 ≤ mi ∧ mi ≤ 59 ∧ 0 ≤ s ∧ s ≤ 59 then
    Except.ok ⟨y, mo, d, h, mi, s⟩
  else
    Except.error PyError.valueError

/-! ## Records

Each namedtuple of the source has `time` as its field 0; `x[0]` and
`x._replace(time=...)` act on that field uniformly, so a record is
modelled as its `time` field plus the tuple `rest` of the remaining
fields. -/

/-- A sar record: the `time` field (field 0 of the namedtuple) plus the
remaining fields. -/
structure SarRec (τ β : Type) : Type where
  time : τ
  rest : β
deriving DecidableEq, Repr

/-- Fields of `CPUUsage` after `time`. -/
structure CpuFields : Type where
  cpu : PyStr
  puser : PyFloat
  pnice : PyFloat
  psystem : PyFloat
  piowait : PyFloat
  psteal : PyFloat
  pidle : PyFloat
deriving DecidableEq, Repr

/-- Fields of `MemoryUsage` after `time`. -/
structure MemFields : Type where
  kbmemfree : PyFloat
  kbmemused : PyFloat
  pmemused : PyFloat
  kbbuffers : PyFloat
  kbcached : PyFloat
  kbcommit : PyFloat
  pcommit : PyFloat
  kbactive : PyFloat
  kbinact : PyFloat
deriving DecidableEq, Repr

/-- Fields of `DeviceStats` after `time`. -/
structure DiskFields : Type where
  dev : PyStr
  tps : PyFloat
  reads : PyFloat
  writes : PyFloat
  avgrqsz : PyFloat
  avgqusz : PyFloat
  await : PyFloat
  svctm : PyFloat
  putil : PyFloat
deriving DecidableEq, Repr

/-- A parsed timelog line. -/
structure TimelogEntry : Type where
  script : PyStr
  stage : PyStr
  timestamp : Datetime
deriving DecidableEq, Repr

/-- The dictionary `d` created by `parse_timelog`. -/
abbrev PyDict := List (PyStr × PyStr)

/-! ## Line tokenizers -/

/-- Loop body of `parse_sar_cpu` over the enumerated lines. -/
def cpu_loop : Nat → List PyStr → Except PyError (List (SarRec PyStr CpuFields))
  | _, [] => Except.ok []
  | n, line :: more =>
    if pyStrip line = [] then cpu_loop (n + 1) more
    else if n < 3 then cpu_loop (n + 1) more
    else if pyStartsWith (pystr (r"Average")) line then cpu_loop (n + 1) more
    else if pyContains (pystr (r"%user")) line then cpu_loop (n + 1) more
    else
      match pySplitWs (pyStrip line) with
      | [t0, t1, c, a1, a2, a3, a4, a5, a6] => do
        let tail ← cpu_loop (n + 1) more
        Except.ok (⟨t0 ++ ' ' :: t1,
          ⟨c, pyFloat a1, pyFloat a2, pyFloat a3, pyFloat a4, pyFloat a5,
            pyFloat a6⟩⟩ :: tail)
      | _ => Except.error PyError.assertionError

/-- Model of `parse_sar_cpu`: the file is given as its decompressed
lines. -/
def parse_sar_cpu (lines : List PyStr) :
    Except PyError (List (SarRec PyStr CpuFields)) :=
  cpu_loop 0 lines

/-- Loop body of `parse_sar_ram` over the enumerated lines: the field
count must be at least 11 and the numeric fields are `line[2:11]`. -/
def ram_loop : Nat → List PyStr → Except PyError (List (SarRec PyStr MemFields))
  | _, [] => Except.ok []
  | n, line :: more =>
    if pyStrip line = [] then ram_loop (n + 1) more
    else if n < 3 then ram_loop (n + 1) more
    else if pyStartsWith (pystr (r"Average")) line then ram_loop (n + 1) more
    else if pyContains (pystr (r"kbmemfree")) line then ram_loop (n + 1) more
    else
      match pySplitWs (pyStrip line) with
      | t0 :: t1 :: a1 :: a2 :: a3 :: a4 :: a5 :: a6 :: a7 :: a8 :: a9 :: _ => do
        let tail ← ram_loop (n + 1) more
        Except.ok (⟨t0 ++ ' ' :: t1,
          ⟨pyFloat a1, pyFloat a2, pyFloat a3, pyFloat a4, pyFloat a5,
            pyFloat a6, pyFloat a7, pyFloat a8, pyFloat a9⟩⟩ :: tail)
      | _ => Except.error PyError.assertionError

/-- Model of `parse_sar_ram`: the file is given as its decompressed
lines. -/
def parse_sar_ram (lines : List PyStr) :
    Except PyError (List (SarRec PyStr MemFields)) :=
  ram_loop 0 lines

/-- Loop body of `parse_sar_disk`: note the source consults `line[2]`
(an `IndexError` below 3 fields) and skips non-matching devices before
asserting the field count. -/
def disk_loop (device : PyStr) :
    Nat → List PyStr → Except PyError (List (SarRec PyStr DiskFields))
  | _, [] => Except.ok []
  | n, line :: more =>
    if n < 3 then disk_loop device (n + 1) more
    else if pyStartsWith (pystr (r"Average")) line then disk_loop device (n + 1) more
    else if pyStrip line = [] then disk_loop device (n + 1) more
    else
      match pySplitWs (pyStrip line) with
      | t0 :: t1 :: dv :: rest =>
        if dv ≠ device then disk_loop device (n + 1) more
        else
          match rest with
          | [a1, a2, a3, a4, a5, a6, a7, a8] => do
            let tail ← disk_loop device (n + 1) more
            Except.ok (⟨t0 ++ ' ' :: t1,
              ⟨dv, pyFloat a1, pyFloat a2, pyFloat a3, pyFloat a4, pyFloat a5,
                pyFloat a6, pyFloat a7, pyFloat a8⟩⟩ :: tail)
          | _ => Except.error PyError.assertionError
      | _ => Except.error PyError.indexError

/-- Model of `parse_sar_disk`: the file is given as its decompressed
lines; rows are filtered to `device`. -/
def parse_sar_disk (lines : List PyStr) (device : PyStr) :
    Except PyError (List (SarRec PyStr DiskFields)) :=
  disk_loop device 0 lines

/-- Number of data rows of a disk report: lines that survive the
header/footer/blank skips of `parse_sar_disk` (before any device
filtering). -/
def disk_data_rows : Nat → List PyStr → Nat
  | _, [] => 0
  | n, line :: more =>
    if n < 3 then disk_data_rows (n + 1) more
    else if pyStartsWith (pystr (r"Average")) line then disk_data_rows (n + 1) more
    else if pyStrip line = [] then disk_data_rows (n + 1) more
    else disk_data_rows (n + 1) more + 1

/-! ## Timelog parsing -/

/-- Abbreviated month names accepted by `%b`, mapped to month numbers. -/
def monthNum (m : PyStr) : Option Int :=
  if m = pystr (r"Jan") then some 1
  else if m = pystr (r"Feb") then some 2
  else if m = pystr (r"Mar") then some 3
  else if m = pystr (r"Apr") then some 4
  else if m = pystr (r"May") then some 5
  else if m = pystr (r"Jun") then some 6
  else if m = pystr (r"Jul") then some 7
  else if m = pystr (r"Aug") then some 8
  else if m = pystr (r"Sep") then some 9
  else if m = pystr (r"Oct") then some 10
  else if m = pystr (r"Nov") then some 11
  else if m = pystr (r"Dec") then some 12
  else none

/-- Abbreviated weekday names accepted by `%a` (validated, not otherwise
used). -/
def isWeekdayName (w : PyStr) : Bool :=
  w == pystr (r"Mon") || w == pystr (r"Tue") || w == pystr (r"Wed") ||
    w == pystr (r"Thu") || w == pystr (r"Fri") || w == pystr (r"Sat") ||
    w == pystr (r"Sun")

/-- Timezone names accepted by `%Z` (validated, not used: the parsed
datetime is naive). -/
def isTzName (w : PyStr) : Bool :=
  w == pystr (r"UTC") || w == pystr (r"GMT")

/-- A 1- or 2-digit numeric field of `strptime`. -/
def digitsMax2 (s : PyStr) : Option Int :=
  if s ≠ [] ∧ s.length ≤ 2 ∧ s.all Char.isDigit then some (digitsVal s) else none

/-- The 4-digit year field of `strptime` (`%Y`). -/
def digits4 (s : PyStr) : Option Int :=
  if s.length = 4 ∧ s.all Char.isDigit then some (digitsVal s) else none

/-- Component parsing for
`datetime.strptime(s, '%a %b %d %H:%M:%S %Z %Y')`: whitespace in the
format matches whitespace runs; each component is validated; the result
is built by the validating `datetime` constructor. -/
def strptime_fields (s : PyStr) : Option Datetime := do
  match pySplitWs s with
  | [wd, mon, dayTok, hms, tz, yrTok] =>
    if isWeekdayName wd ∧ isTzName tz then
      match pySplitOn ':' hms with
      | [hh, mm, ss] => do
        let mo ← monthNum mon
        let d ← digitsMax2 dayTok
        let h ← digitsMax2 hh
        let mi ← digitsMax2 mm
        let sec ← digitsMax2 ss
        let y ← digits4 yrTok
        match datetime_new y mo d h mi sec with
        | Except.ok t => some t
        | Except.error _ => none
      | _ => none
    else none
  | _ => none

/-- Model of `datetime.datetime.strptime(s, '%a %b %d %H:%M:%S %Z %Y')`:
`ValueError` when the fixed format does not match. -/
def strptime_timelog (s : PyStr) : Except PyError Datetime :=
  match strptime_fields s with
  | some d => Except.ok d
  | none => Except.error PyError.valueError

/-- Loop body of `parse_timelog`: each line is stripped, split on the
first two spaces (a `ValueError` when that yields fewer than 3 pieces,
as the 3-way unpacking fails), and the remainder parsed as a timestamp. -/
def timelog_loop : List PyStr → Except PyError (List TimelogEntry)
  | [] => Except.ok []
  | line :: more =>
    match pySplitSpace2 (pyStrip line) with
    | [script, stage, tstamp] => do
      let t ← strptime_timelog tstamp
      let tail ← timelog_loop more
      Except.ok (⟨script, stage, t⟩ :: tail)
    | _ => Except.error PyError.valueError

/-- Model of `parse_timelog`: creates the dictionary `d = {}` (which the
loop never touches) and returns it alongside the parsed entries. -/
def parse_timelog (lines : List PyStr) :
    Except PyError (PyDict × List TimelogEntry) := do
  let d : PyDict := []
  let parsed ← timelog_loop lines
  Except.ok (d, parsed)

/-! ## Timestamp reconstruction -/

/-- Model of `parse_sartime`: take the piece before the first space
(`"HH:MM:SS"`), split it on `':'` into exactly three pieces (the 3-way
unpacking raises `ValueError` otherwise) and parse each as an int. -/
def parse_sartime (t : PyStr) : Except PyError (Int × Int × Int) := do
  let t0 ← pyIndex (pySplitOn ' ' t) 0
  match pySplitOn ':' t0 with
  | [hh, mm, ss] =>
    match pyInt hh, pyInt mm, pyInt ss with
    | some h, some m, some s => Except.ok (h, m, s)
    | _, _, _ => Except.error PyError.valueError
  | _ => Except.error PyError.valueError

/-- Model of `get_sar_start_time`: year, month, day and hour come from
the reference timestamp, minute and second from the first sample's
time-of-day (its hour is discarded). -/
def get_sar_start_time {β : Type} (sar_data : List (SarRec PyStr β))
    (timelog_timestamp : Datetime) : Except PyError Datetime := do
  let first ← pyIndex sar_data 0
  let hms ← parse_sartime first.time
  datetime_new timelog_timestamp.year timelog_timestamp.month
    timelog_timestamp.day timelog_timestamp.hour hms.2.1 hms.2.2

/-- Model of `make_timediff`: parse the first two samples' times, assert
they share the hour, and return the minute/second difference in
seconds. -/
def make_timediff {β : Type} (sar_data : List (SarRec PyStr β)) :
    Except PyError Int := do
  let x0 ← pyIndex sar_data 0
  let t1 ← parse_sartime x0.time
  let x1 ← pyIndex sar_data 1
  let t2 ← parse_sartime x1.time
  if t1.1 = t2.1 then
    Except.ok ((t2.2.1 - t1.2.1) * 60 + (t2.2.2 - t1.2.2))
  else Except.error PyError.assertionError

/-- Model of `fixtime`: walk the records in order, building a new record
from each with only the `time` field substituted by the running
timestamp, which advances by `timedelta(0, secdiff)` per record. -/
def fixtime {τ β : Type} (sar_data : List (SarRec τ β)) (start : Datetime)
    (secdiff : Int) : List (SarRec Datetime β) :=
  match sar_data with
  | [] => []
  | x :: xs => ⟨start, x.rest⟩ :: fixtime xs (addSeconds start secdiff) secdiff

/-! ## Theorems: timestamp rewriter -/

theorem fixtime_length {τ β : Type} (sar_data : List (SarRec τ β))
    (start : Datetime) (secdiff : Int) :
    (fixtime sar_data start secdiff).length = sar_data.length := by
  induction sar_data generalizing start with
  | nil => rfl
  | cons x xs ih => simp [fixtime, ih]

theorem fixtime_get_toSeconds {τ β : Type} (sar_data : List (SarRec τ β))
    (start : Datetime) (secdiff : Int) :
    ∀ (i : Nat) (h : i < (fixtime sar_data start secdiff).length),
      toSeconds (((fixtime sar_data start secdiff).get ⟨i, h⟩).time) =
        toSeconds start + (i : Int) * secdiff := by
  induction sar_data generalizing start with
  | nil => intro i h; simp [fixtime] at h
  | cons x xs ih =>
    intro i h
    cases i with
    | zero => simp [fixtime]
    | succ k =>
      have hk : k < (fixtime xs (addSeconds start secdiff) secdiff).length := by
        simpa [fixtime] using h
      have hrec := ih (addSeconds start secdiff) k hk
      simp only [fixtime, List.get_cons_succ]
      rw [hrec, toSeconds_addSeconds]
      push_cast
      ring

theorem fixtime_get_rest {τ β : Type} (sar_data : List (SarRec τ β))
    (start : Datetime) (secdiff : Int) :
    ∀ (i : Nat) (h : i < (fixtime sar_data start secdiff).length)
      (h' : i < sar_data.length),
      (((fixtime sar_data start secdiff).get ⟨i, h⟩).rest) =
        ((sar_data.get ⟨i, h'⟩).rest) := by
  induction sar_data generalizing start with
  | nil => intro i h; simp [fixtime] at h
  | cons x xs ih =>
    intro i h h'
    cases i with
    | zero => simp [fixtime]
    | succ k =>
      have hk : k < (fixtime xs (addSeconds start secdiff) secdiff).length := by
        simpa [fixtime] using h
      have hk' : k < xs.length := by simpa using h'
      simpa only [fixtime, List.get_cons_succ] using
        ih (addSeconds start secdiff) k hk hk'

/-- C1: for every sample sequence, start time and interval `secdiff`,
`fixtime` returns a sequence of the same length in which entry `i`'s
time is the instant `start + i * secdiff` seconds; consecutive entries
are exactly `secdiff` seconds apart, and when `secdiff > 0` the
timestamps are strictly increasing. -/
theorem fixtime_rewrites_uniformly {τ β : Type} (sar_data : List (SarRec τ β))
    (start : Datetime) (secdiff : Int) :
    (fixtime sar_data start secdiff).length = sar_data.length ∧
    (∀ (i : Nat) (h : i < (fixtime sar_data start secdiff).length),
      toSeconds (((fixtime sar_data start secdiff).get ⟨i, h⟩).time) =
        toSeconds start + (i : Int) * secdiff) ∧
    (∀ (i : Nat) (h : i + 1 < (fixtime sar_data start secdiff).length),
      toSeconds (((fixtime sar_data start secdiff).get ⟨i + 1, h⟩).time) =
        toSeconds (((fixtime sar_data start secdiff).get
          ⟨i, Nat.lt_of_succ_lt h⟩).time) + secdiff) ∧
    (0 < secdiff →
      ∀ (i j : Nat) (hi : i < (fixtime sar_data start secdiff).length)
        (hj : j < (fixtime sar_data start secdiff).length), i < j →
        toSeconds (((fixtime sar_data start secdiff).get ⟨i, hi⟩).time) <
          toSeconds (((fixtime sar_data start secdiff).get ⟨j, hj⟩).time)) := by
  refine ⟨fixtime_length sar_data start secdiff,
    fixtime_get_toSeconds sar_data start secdiff, ?_, ?_⟩
  · intro i h
    rw [fixtime_get_toSeconds sar_data start secdiff (i + 1) h,
      fixtime_get_toSeconds sar_data start secdiff i (Nat.lt_of_succ_lt h)]
    push_cast
    ring
  · intro hpos i j hi hj hij
    rw [fixtime_get_toSeconds sar_data start secdiff i hi,
      fixtime_get_toSeconds sar_data start secdiff j hj]
    have hmul : (i : Int) * secdiff < (j : Int) * secdiff :=
      mul_lt_mul_of_pos_right (by exact_mod_cast hij) hpos
    linarith

/-- Sample records used to exercise the theorems on concrete input. -/
def exRecs : List (SarRec PyStr Unit) :=
  [⟨pystr (r"09:40:03 PM"), ()⟩, ⟨pystr (r"09:40:13 PM"), ()⟩]

/-- A concrete resolved start time, 2024-01-02 21:40:03. -/
def exStart : Datetime := ⟨2024, 1, 2, 21, 40, 3⟩

theorem fixtime_rewrites_uniformly_witness :
    toSeconds (((fixtime exRecs exStart 10).get ⟨1, by decide⟩).time) =
      toSeconds exStart + (1 : Int) * 10 ∧
    toSeconds (((fixtime exRecs exStart 10).get ⟨0, by decide⟩).time) <
      toSeconds (((fixtime exRecs exStart 10).get ⟨1, by decide⟩).time) :=
  ⟨(fixtime_rewrites_uniformly exRecs exStart 10).2.1 1 (by decide),
    (fixtime_rewrites_uniformly exRecs exStart 10).2.2.2 (by decide) 0 1
      (by decide) (by decide) (by decide)⟩

/-- C9: `fixtime` changes only the `time` field: every output record
carries the `rest` fields of the input record at the same position
unchanged.  The embedding is a pure function on immutable values, as is
the source's `_replace`-based copy: the input sequence and its records
are not mutated. -/
theorem fixtime_preserves_other_fields {τ β : Type} (sar_data : List (SarRec τ β))
    (start : Datetime) (secdiff : Int) :
    (fixtime sar_data start secdiff).length = sar_data.length ∧
    (∀ (i : Nat) (h : i < (fixtime sar_data start secdiff).length)
      (h' : i < sar_data.length),
      (((fixtime sar_data start secdiff).get ⟨i, h⟩).rest) =
        ((sar_data.get ⟨i, h'⟩).rest)) :=
  ⟨fixtime_length sar_data start secdiff, fixtime_get_rest sar_data start secdiff⟩

theorem fixtime_preserves_other_fields_witness :
    (((fixtime exRecs exStart 10).get ⟨0, by decide⟩).rest) =
      ((exRecs.get ⟨0, by decide⟩).rest) :=
  (fixtime_preserves_other_fields exRecs exStart 10).2 0 (by decide) (by decide)

/-! ## Theorems: interval estimation and start-time resolution -/

theorem datetime_new_ok {y mo dd h mi s : Int} {d : Datetime}
    (hok : datetime_new y mo dd h mi s = Except.ok d) :
    d = ⟨y, mo, dd, h, mi, s⟩ := by
  unfold datetime_new at hok
  split at hok <;> simp_all

/-- C2: when the first two samples' time-of-day fields parse to the same
hour, `make_timediff` returns exactly `(min2 - min1) * 60 + (sec2 - sec1)`
seconds; the result is an arbitrary integer (negative or zero included),
as nothing beyond the same-hour check is validated. -/
theorem make_timediff_formula {β : Type} (sar_data : List (SarRec PyStr β))
    (r1 r2 : SarRec PyStr β) (hr m1 s1 m2 s2 : Int)
    (h0 : sar_data[0]? = some r1) (h1 : sar_data[1]? = some r2)
    (hp1 : parse_sartime r1.time = Except.ok (hr, m1, s1))
    (hp2 : parse_sartime r2.time = Except.ok (hr, m2, s2)) :
    make_timediff sar_data = Except.ok ((m2 - m1) * 60 + (s2 - s1)) := by
  simp [make_timediff, pyIndex, h0, h1, hp1, hp2, Except.instMonad, Except.bind]

theorem make_timediff_formula_witness :
    make_timediff exRecs = Except.ok ((40 - 40) * 60 + (13 - 3)) :=
  make_timediff_formula exRecs ⟨pystr (r"09:40:03 PM"), ()⟩
    ⟨pystr (r"09:40:13 PM"), ()⟩ 9 40 3 40 13
    (by decide) (by decide) (by decide) (by decide)

/-- C6: when the first two samples' time-of-day fields parse to distinct
hours, `make_timediff` fails with the assertion `t1[0] == t2[0]` and
returns no value. -/
theorem make_timediff_hour_assert {β : Type} (sar_data : List (SarRec PyStr β))
    (r1 r2 : SarRec PyStr β) (q1 m1 s1 q2 m2 s2 : Int)
    (h0 : sar_data[0]? = some r1) (h1 : sar_data[1]? = some r2)
    (hp1 : parse_sartime r1.time = Except.ok (q1, m1, s1))
    (hp2 : parse_sartime r2.time = Except.ok (q2, m2, s2))
    (hne : q1 ≠ q2) :
    make_timediff sar_data = Except.error PyError.assertionError := by
  simp [make_timediff, pyIndex, h0, h1, hp1, hp2, hne, Except.instMonad,
    Except.bind]

/-- Sample records whose first two times straddle an hour boundary. -/
def exRecsHour : List (SarRec PyStr Unit) :=
  [⟨pystr (r"09:59:58 PM"), ()⟩, ⟨pystr (r"10:00:08 PM"), ()⟩]

theorem make_timediff_hour_assert_witness :
    make_timediff exRecsHour = Except.error PyError.assertionError :=
  make_timediff_hour_assert exRecsHour ⟨pystr (r"09:59:58 PM"), ()⟩
    ⟨pystr (r"10:00:08 PM"), ()⟩ 9 59 58 10 0 8
    (by decide) (by decide) (by decide) (by decide) (by decide)

/-- C7: with fewer than two samples `make_timediff` fails (an
`IndexError` on the missing sample, or a `ValueError` if the only
sample's time field is unparsable) and never returns an interval. -/
theorem make_timediff_short_input {β : Type} (sar_data : List (SarRec PyStr β))
    (hlen : sar_data.length < 2) :
    ∃ e, make_timediff sar_data = Except.error e := by
  match sar_data, hlen with
  | [], _ =>
    exact ⟨PyError.indexError,
      by simp [make_timediff, pyIndex, Except.instMonad, Except.bind]⟩
  | [x], _ =>
    cases hp : parse_sartime x.time with
    | ok t =>
      exact ⟨PyError.indexError,
        by simp [make_timediff, pyIndex, hp, Except.instMonad, Except.bind]⟩
    | error e =>
      exact ⟨e,
        by simp [make_timediff, pyIndex, hp, Except.instMonad, Except.bind]⟩

theorem make_timediff_short_input_witness :
    ([] : List (SarRec PyStr Unit)).length < 2 ∧
      ∃ e, make_timediff ([] : List (SarRec PyStr Unit)) = Except.error e :=
  ⟨by decide, make_timediff_short_input [] (by decide)⟩

/-- C3: a resolved start time takes year, month, day and hour from the
reference timestamp and minute and second from the first sample's
time-of-day (whose hour is discarded); and the resolution is
deterministic: any sequence with the same first-sample time field,
resolved against the same reference, yields the same result. -/
theorem get_sar_start_time_components {β β' : Type}
    (sar_data : List (SarRec PyStr β)) (ref : Datetime) (r : SarRec PyStr β)
    (d : Datetime) (hh mi ss : Int)
    (h0 : sar_data[0]? = some r)
    (hp : parse_sartime r.time = Except.ok (hh, mi, ss))
    (hok : get_sar_start_time sar_data ref = Except.ok d) :
    (d.year = ref.year ∧ d.month = ref.month ∧ d.day = ref.day ∧
      d.hour = ref.hour ∧ d.minute = mi ∧ d.second = ss) ∧
    (∀ (sar2 : List (SarRec PyStr β')) (r2 : SarRec PyStr β'),
      sar2[0]? = some r2 → r2.time = r.time →
      get_sar_start_time sar2 ref = Except.ok d) := by
  simp [get_sar_start_time, pyIndex, h0, hp, Except.instMonad,
    Except.bind] at hok
  constructor
  · have hd := datetime_new_ok hok
    subst hd
    exact ⟨rfl, rfl, rfl, rfl, rfl, rfl⟩
  · intro sar2 r2 h02 htime
    simp [get_sar_start_time, pyIndex, h02, htime, hp, Except.instMonad,
      Except.bind]
    exact hok

/-- A concrete reference timestamp, 2024-01-02 15:04:05. -/
def exRef : Datetime := ⟨2024, 1, 2, 15, 4, 5⟩

/-- A second sample sequence sharing the first sample's time field. -/
def exRecs2 : List (SarRec PyStr Unit) :=
  [⟨pystr (r"09:40:03 PM"), ()⟩, ⟨pystr (r"unrelated"), ()⟩]

theorem get_sar_start_time_components_witness :
    ((⟨2024, 1, 2, 15, 40, 3⟩ : Datetime).year = exRef.year ∧
      (⟨2024, 1, 2, 15, 40, 3⟩ : Datetime).month = exRef.month ∧
      (⟨2024, 1, 2, 15, 40, 3⟩ : Datetime).day = exRef.day ∧
      (⟨2024, 1, 2, 15, 40, 3⟩ : Datetime).hour = exRef.hour ∧
      (⟨2024, 1, 2, 15, 40, 3⟩ : Datetime).minute = 40 ∧
      (⟨2024, 1, 2, 15, 40, 3⟩ : Datetime).second = 3) ∧
    get_sar_start_time exRecs2 exRef = Except.ok ⟨2024, 1, 2, 15, 40, 3⟩ :=
  ⟨(@get_sar_start_time_components Unit Unit exRecs exRef
      ⟨pystr (r"09:40:03 PM"), ()⟩ ⟨2024, 1, 2, 15, 40, 3⟩ 9 40 3
      (by decide) (by decide) (by decide)).1,
    (@get_sar_start_time_components Unit Unit exRecs exRef
      ⟨pystr (r"09:40:03 PM"), ()⟩ ⟨2024, 1, 2, 15, 40, 3⟩ 9 40 3
      (by decide) (by decide) (by decide)).2
      exRecs2 ⟨pystr (r"09:40:03 PM"), ()⟩ (by decide) (by decide)⟩

/-! ## Theorems: timelog parsing -/

/-- C10: whenever `parse_timelog` succeeds, the first component of the
returned pair is the dictionary `d` created at entry and never
populated — always empty. -/
theorem parse_timelog_first_component_empty (lines : List PyStr)
    (res : PyDict × List TimelogEntry)
    (hok : parse_timelog lines = Except.ok res) :
    res.1 = [] := by
  simp [parse_timelog, Except.instMonad, Except.bind] at hok
  cases h : timelog_loop lines with
  | ok parsed =>
    rw [h] at hok
    simp at hok
    simp [← hok]
  | error e =>
    rw [h] at hok
    simp at hok

/-- A concrete timelog file. -/
def exTimelogLines : List PyStr :=
  [pystr (r"build compile Mon Jan 02 15:04:05 UTC 2024")]

/-- The parse result of `exTimelogLines`. -/
def exTimelogRes : PyDict × List TimelogEntry :=
  ([], [⟨pystr (r"build"), pystr (r"compile"), ⟨2024, 1, 2, 15, 4, 5⟩⟩])

theorem parse_timelog_first_component_empty_witness :
    parse_timelog exTimelogLines = Except.ok exTimelogRes ∧ exTimelogRes.1 = [] :=
  ⟨by decide,
    parse_timelog_first_component_empty exTimelogLines exTimelogRes (by decide)⟩

/-! ## Theorems: memory report field selection (C5) -/

/-- A memory data row with exactly 11 whitespace-separated fields. -/
def exMemRow11 : PyStr :=
  pystr (r"09:40:03 PM 100 200 2.5 300 400 500 5.5 600 700")

/-- A memory report: three header lines, then the 11-field data row. -/
def exMemLines : List PyStr :=
  [pystr (r"h1"), pystr (r"h2"), pystr (r"h3"), exMemRow11]

/-- The record parsed from `exMemRow11`. -/
def exMemRec : SarRec PyStr MemFields :=
  ⟨pystr (r"09:40:03 PM"),
    ⟨pyFloat (pystr (r"100")), pyFloat (pystr (r"200")),
      pyFloat (pystr (r"2.5")), pyFloat (pystr (r"300")),
      pyFloat (pystr (r"400")), pyFloat (pystr (r"500")),
      pyFloat (pystr (r"5.5")), pyFloat (pystr (r"600")),
      pyFloat (pystr (r"700"))⟩⟩

/-- C5 counterexample: on a row with exactly 11 fields the parser keeps
the field at 0-based index 10 — it becomes the record's `kbinact`
field — rather than excluding it: `line[2:11]` spans token indices 2..10,
and an 11-field row carries no kbdirty to drop. -/
theorem parse_sar_ram_keeps_index10 :
    (pySplitWs (pyStrip exMemRow11)).length = 11 ∧
    (pySplitWs (pyStrip exMemRow11))[10]? = some (pystr (r"700")) ∧
    parse_sar_ram exMemLines = Except.ok [exMemRec] ∧
    exMemRec.rest.kbinact = pyFloat (pystr (r"700")) :=
  ⟨by decide, by decide, by decide, by decide⟩

/-- C5 amended: on every memory data row with at least 11 fields the
record keeps exactly the 9 numeric fields at token indices 2..10 after
the two time tokens; tokens from index 11 on (kbdirty, when present) are
excluded — the output does not depend on them. -/
theorem parse_sar_ram_keeps_fields_2_to_10 (n : Nat) (line : PyStr)
    (more : List PyStr) (t0 t1 a1 a2 a3 a4 a5 a6 a7 a8 a9 : PyStr)
    (rest : List PyStr)
    (hblank : pyStrip line ≠ [])
    (hn : 3 ≤ n)
    (havg : pyStartsWith (pystr (r"Average")) line = false)
    (hhdr : pyContains (pystr (r"kbmemfree")) line = false)
    (htok : pySplitWs (pyStrip line) =
      t0 :: t1 :: a1 :: a2 :: a3 :: a4 :: a5 :: a6 :: a7 :: a8 :: a9 :: rest) :
    ram_loop n (line :: more) = (ram_loop (n + 1) more).map
      (fun tail => (⟨t0 ++ ' ' :: t1,
        ⟨pyFloat a1, pyFloat a2, pyFloat a3, pyFloat a4, pyFloat a5,
          pyFloat a6, pyFloat a7, pyFloat a8, pyFloat a9⟩⟩ :
        SarRec PyStr MemFields) :: tail) := by
  have hn' : ¬ n < 3 := by omega
  cases h : ram_loop (n + 1) more with
  | ok tail =>
    simp [ram_loop, hblank, hn', havg, hhdr, htok, h, Except.instMonad,
      Except.bind, Except.map]
  | error e =>
    simp [ram_loop, hblank, hn', havg, hhdr, htok, h, Except.instMonad,
      Except.bind, Except.map]

/-- A memory data row with 12 fields: the last one is kbdirty. -/
def exMemRow12 : PyStr :=
  pystr (r"09:40:03 PM 100 200 2.5 300 400 500 5.5 600 700 12345")

theorem parse_sar_ram_keeps_fields_2_to_10_witness :
    ram_loop 3 [exMemRow12] = (ram_loop 4 []).map
      (fun tail => exMemRec :: tail) :=
  parse_sar_ram_keeps_fields_2_to_10 3 exMemRow12 []
    (pystr (r"09:40:03")) (pystr (r"PM")) (pystr (r"100")) (pystr (r"200"))
    (pystr (r"2.5")) (pystr (r"300")) (pystr (r"400")) (pystr (r"500"))
    (pystr (r"5.5")) (pystr (r"600")) (pystr (r"700")) [pystr (r"12345")]
    (by decide) (by decide) (by decide) (by decide) (by decide)

/-! ## Theorems: disk report parsing (C4, C8) -/

/-- A malformed disk line: 4 fields, device field `sda`. -/
def exDiskBad : PyStr := pystr (r"09:40:03 PM sda 1.0")

/-- A disk report containing the malformed line after the headers. -/
def exDiskLines : List PyStr :=
  [pystr (r"h1"), pystr (r"h2"), pystr (r"h3"), exDiskBad]

/-- C4 counterexample: a data line whose field count is not 11 but whose
device field does not match the requested device is skipped by the
device filter before the field-count assertion is reached — the parse
succeeds with no records instead of aborting. -/
theorem parse_sar_disk_no_assert_on_nonmatching :
    (pySplitWs (pyStrip exDiskBad)).length ≠ 11 ∧
    parse_sar_disk exDiskLines (pystr (r"sdb")) = Except.ok [] :=
  ⟨by decide, by decide⟩

/-- C4 amended: for a non-skipped disk data line whose device field
(token index 2) equals the requested device, a field count other than 11
aborts the parse with an assertion failure (a line with fewer than 3
tokens instead aborts with an `IndexError` at the device access, and a
malformed line whose device field does not match is silently skipped). -/
theorem parse_sar_disk_asserts_on_matching_malformed (device : PyStr) (n : Nat)
    (line : PyStr) (more : List PyStr) (t0 t1 : PyStr) (rest : List PyStr)
    (hn : 3 ≤ n)
    (havg : pyStartsWith (pystr (r"Average")) line = false)
    (hblank : pyStrip line ≠ [])
    (htok : pySplitWs (pyStrip line) = t0 :: t1 :: device :: rest)
    (hlen : rest.length ≠ 8) :
    disk_loop device n (line :: more) = Except.error PyError.assertionError := by
  have hn' : ¬ n < 3 := by omega
  rcases rest with _ | ⟨a1, _ | ⟨a2, _ | ⟨a3, _ | ⟨a4, _ | ⟨a5, _ | ⟨a6,
    _ | ⟨a7, _ | ⟨a8, _ | ⟨a9, rest⟩⟩⟩⟩⟩⟩⟩⟩⟩ <;>
    simp_all [disk_loop, hn', havg, hblank, htok]

theorem parse_sar_disk_asserts_on_matching_malformed_witness :
    disk_loop (pystr (r"sda")) 3 [exDiskBad] =
      Except.error PyError.assertionError :=
  parse_sar_disk_asserts_on_matching_malformed (pystr (r"sda")) 3 exDiskBad []
    (pystr (r"09:40:03")) (pystr (r"PM")) [pystr (r"1.0")]
    (by decide) (by decide) (by decide) (by decide) (by decide)

theorem disk_loop_ok_spec (device : PyStr) :
    ∀ (n : Nat) (lines : List PyStr) (out : List (SarRec PyStr DiskFields)),
      disk_loop device n lines = Except.ok out →
      (∀ rec ∈ out, rec.rest.dev = device) ∧
        out.length ≤ disk_data_rows n lines := by
  intro n lines
  induction lines generalizing n with
  | nil =>
    intro out h
    simp [disk_loop] at h
    subst h
    exact ⟨by simp, by simp [disk_data_rows]⟩
  | cons line more ih =>
    intro out h
    rw [disk_loop] at h
    by_cases h3 : n < 3
    · rw [if_pos h3] at h
      have hrec := ih (n + 1) out h
      simpa [disk_data_rows, h3] using hrec
    · rw [if_neg h3] at h
      by_cases havg : pyStartsWith (pystr (r"Average")) line = true
      · rw [if_pos havg] at h
        have hrec := ih (n + 1) out h
        simpa [disk_data_rows, h3, havg] using hrec
      · rw [if_neg havg] at h
        by_cases hblank : pyStrip line = []
        · rw [if_pos hblank] at h
          have hrec := ih (n + 1) out h
          simpa [disk_data_rows, h3, havg, hblank] using hrec
        · rw [if_neg hblank] at h
          have hrows : disk_data_rows n (line :: more) =
              disk_data_rows (n + 1) more + 1 := by
            rw [disk_data_rows, if_neg h3]
            simp [havg, hblank]
          rcases htoks : pySplitWs (pyStrip line) with _ | ⟨t0, _ | ⟨t1, _ | ⟨dv, rest⟩⟩⟩ <;>
            rw [htoks] at h <;> dsimp only at h
          · simp at h
          · simp at h
          · simp at h
          · by_cases hdv : dv ≠ device
            · rw [if_pos hdv] at h
              have hrec := ih (n + 1) out h
              exact ⟨hrec.1, by omega⟩
            · rw [if_neg hdv] at h
              push_neg at hdv
              rcases rest with _ | ⟨a1, _ | ⟨a2, _ | ⟨a3, _ | ⟨a4, _ | ⟨a5, _ | ⟨a6,
                _ | ⟨a7, _ | ⟨a8, _ | ⟨a9, rest⟩⟩⟩⟩⟩⟩⟩⟩⟩
              · simp at h
              · simp at h
              · simp at h
              · simp at h
              · simp at h
              · simp at h
              · simp at h
              · simp at h
              · dsimp only at h
                cases hrec : disk_loop device (n + 1) more with
                | ok tail =>
                  rw [hrec] at h
                  simp [Except.instMonad, Except.bind] at h
                  have htail := ih (n + 1) tail hrec
                  refine ⟨?_, ?_⟩
                  · intro s hs
                    rw [← h] at hs
                    rcases List.mem_cons.mp hs with hs1 | hs2
                    · rw [hs1, hdv]
                    · exact htail.1 s hs2
                  · rw [← h]
                    simp only [List.length_cons]
                    omega
                | error e =>
                  rw [hrec] at h
                  simp [Except.instMonad, Except.bind] at h
              · simp at h

/-- C8: when `parse_sar_disk` succeeds, every output record's `dev`
field equals the requested device, the number of records is at most the
number of data rows of the input, and a data row whose device field does
not match is dropped without error (the loop just moves on). -/
theorem parse_sar_disk_filters_device (lines : List PyStr) (device : PyStr)
    (out : List (SarRec PyStr DiskFields))
    (hok : parse_sar_disk lines device = Except.ok out) :
    (∀ rec ∈ out, rec.rest.dev = device) ∧
    out.length ≤ disk_data_rows 0 lines ∧
    (∀ (n : Nat) (line : PyStr) (more : List PyStr) (t0 t1 dv : PyStr)
      (rest : List PyStr),
      3 ≤ n → pyStartsWith (pystr (r"Average")) line = false →
      pyStrip line ≠ [] →
      pySplitWs (pyStrip line) = t0 :: t1 :: dv :: rest → dv ≠ device →
      disk_loop device n (line :: more) = disk_loop device (n + 1) more) := by
  have hs := disk_loop_ok_spec device 0 lines out hok
  refine ⟨hs.1, hs.2, ?_⟩
  intro n line more t0 t1 dv rest hn havg hblank htok hdv
  have hn' : ¬ n < 3 := by omega
  rw [disk_loop, if_neg hn', if_neg (by simp [havg]), if_neg hblank, htok]
  simp [hdv]

/-- A disk report with one matching and one non-matching data row. -/
def exDiskLines2 : List PyStr :=
  [pystr (r"h1"), pystr (r"h2"), pystr (r"h3"),
    pystr (r"09:40:03 PM sda 1.0 2.0 3.0 4.0 5.0 6.0 7.0 8.0"),
    pystr (r"09:40:13 PM sdb 1.0 2.0 3.0 4.0 5.0 6.0 7.0 8.0")]

/-- The record parsed from the matching row of `exDiskLines2`. -/
def exDiskRec : SarRec PyStr DiskFields :=
  ⟨pystr (r"09:40:03 PM"),
    ⟨pystr (r"sda"), pyFloat (pystr (r"1.0")), pyFloat (pystr (r"2.0")),
      pyFloat (pystr (r"3.0")), pyFloat (pystr (r"4.0")),
      pyFloat (pystr (r"5.0")), pyFloat (pystr (r"6.0")),
      pyFloat (pystr (r"7.0")), pyFloat (pystr (r"8.0"))⟩⟩

theorem parse_sar_disk_filters_device_witness :
    exDiskRec.rest.dev = pystr (r"sda") ∧
    ([exDiskRec] : List (SarRec PyStr DiskFields)).length ≤
      disk_data_rows 0 exDiskLines2 :=
  ⟨(parse_sar_disk_filters_device exDiskLines2 (pystr (r"sda")) [exDiskRec]
      (by decide)).1 exDiskRec (by decide),
    (parse_sar_disk_filters_device exDiskLines2 (pystr (r"sda")) [exDiskRec]
      (by decide)).2.1⟩
